import Mathlib

/-!
Shallow embedding of the admission-control and partial-cache core of the
vantage repository: the sliding-window rate limiter (`RateLimitService`,
`src/unnamed/part_001`), the cooldown governor and tri-state profile cache
(`src/apps/api/src/services/cache.ts`), and the get-or-refresh orchestration
of the profile route (`src/apps/api/src/routes/profile.ts`).

Timestamps are epoch milliseconds, modelled as `Int`.  The Redis sorted set
backing one client's admission window is modelled as a list of member scores
(member strings carry a random disambiguator, so distinct members may share a
score; a list of scores captures exactly that multiset).
-/

namespace Vantage

/-- Result record of `RateLimitService.checkAndRecordRequest`
(`src/unnamed/part_001` lines 253-322). -/
structure RateLimitResult where
  allowed : Bool
  remaining : Int
  resetTime : Int
  total : Int
  currentCount : Int
  deriving Repr, DecidableEq

/-- `ZREMRANGEBYSCORE key -inf window_start` removes every member whose score
is at most `windowStart` (the Redis bound is inclusive); the surviving entries
are those with score strictly greater than `windowStart`. -/
def pruneEntries (entries : List Int) (windowStart : Int) : List Int :=
  entries.filter (fun t => windowStart < t)

/-- `ZRANGE key 0 0 WITHSCORES`: the lowest score in the set, `none` when the
set is empty.  List order is irrelevant because we take the minimum, exactly
as the sorted set does. -/
def oldestScore : List Int → Option Int
  | [] => none
  | t :: ts =>
    match oldestScore ts with
    | none => some t
    | some m => some (min t m)

/-- The Lua script of `checkAndRecordRequest` (`src/unnamed/part_001` lines
267-298) plus the JS post-processing (lines 310-321): prune, count, admit and
record iff strictly under the limit, then read the oldest surviving score for
the reset hint.  Returns the result record and the new sorted-set contents. -/
def checkAndRecordRequest (entries : List Int) (now windowMs limit : Int) :
    RateLimitResult × List Int :=
  let windowStart := now - windowMs
  let pruned := pruneEntries entries windowStart
  let current : Int := pruned.length
  if current < limit then
    let stored := pruned ++ [now]
    { allowed := true
      remaining := max 0 (limit - (current + 1))
      resetTime := (oldestScore stored).getD now + windowMs
      total := limit
      currentCount := current + 1 } |> fun r => (r, stored)
  else
    { allowed := false
      remaining := max 0 (limit - current)
      resetTime := (oldestScore pruned).getD now + windowMs
      total := limit
      currentCount := current } |> fun r => (r, pruned)

/-- Sequential calls of `checkAndRecordRequest` for one client key, one call
per element of the list of call times (fixed window and limit, as the profile
route uses the defaults `60000`/`10`). -/
def runCalls (windowMs limit : Int) : List Int → List Int → List RateLimitResult × List Int
  | entries, [] => ([], entries)
  | entries, t :: ts =>
    let step := checkAndRecordRequest entries t windowMs limit
    let rest := runCalls windowMs limit step.2 ts
    (step.1 :: rest.1, rest.2)

/-- Modelled from the spec wording of C1: "pruning entries older than
`now - windowMs`" keeps every entry whose timestamp is at least the window
start (an entry exactly at the boundary is not older than it).  The source's
`ZREMRANGEBYSCORE` bound is inclusive instead, so the two disagree exactly on
boundary entries. -/
def specSurviving (entries : List Int) (windowStart : Int) : List Int :=
  entries.filter (fun t => windowStart ≤ t)

/-- Call times of the spec scenario: ten requests inside one second, then an
eleventh still inside the same second. -/
def scenarioTimes : List Int :=
  [0, 100, 200, 300, 400, 500, 600, 700, 800, 900, 1000]

/-- The eleven results of the scenario with `windowMs = 60000`,
`maxRequests = 10`, starting from an empty window. -/
def scenarioResults : List RateLimitResult :=
  (runCalls 60000 10 [] scenarioTimes).1

/-- `split(',')[0]`: the characters before the first comma (header strings
are modelled as character lists so that every operation computes by
structural recursion). -/
def splitFirstComma : List Char → List Char
  | [] => []
  | c :: cs => if c = ',' then [] else c :: splitFirstComma cs

/-- JS `String.prototype.trim`: strip whitespace from both ends. -/
def trimChars (s : List Char) : List Char :=
  ((s.dropWhile Char.isWhitespace).reverse.dropWhile Char.isWhitespace).reverse

/-- `RateLimitService.getClientKey` (`src/unnamed/part_001` lines 38-46).
JS truthiness is embedded explicitly: an absent or empty `forwardedFor`
header falls back to `ip`, an absent or empty `userAgent` becomes
`"unknown"`; `split(',')[0].trim()` takes the first comma-separated entry of
the forwarded header, and `substring(0, 200)` bounds the key length. -/
def getClientKey (ip : List Char) (userAgent : Option (List Char))
    (forwardedFor : Option (List Char)) : List Char :=
  let primaryIp :=
    match forwardedFor with
    | some f => if f = [] then ip else trimChars (splitFirstComma f)
    | none => ip
  let ua :=
    match userAgent with
    | some u => if u = [] then "unknown".toList else u
    | none => "unknown".toList
  (primaryIp ++ ':' :: ua).take 200

/-- Outcome of the `redis.ping()` round trip inside
`RateLimitService.isRedisHealthy`: a reply string, or a thrown error. -/
inductive PingOutcome where
  | reply (s : String)
  | errPing
  deriving Repr, DecidableEq

/-- `RateLimitService.isRedisHealthy` (`src/unnamed/part_001` lines 117-125):
healthy iff the ping replies exactly `PONG`; the catch branch returns
false. -/
def isRedisHealthy : PingOutcome → Bool
  | .reply s => s == "PONG"
  | .errPing => false

/-- Outcome of the admission prefix of `GET /profile/:id`
(`src/apps/api/src/routes/profile.ts` lines 36-81): the fail-closed health
gate, the atomic rate-limit check, and the CAPTCHA escalation. -/
inductive AdmissionOutcome where
  | serviceUnavailable
  | captchaRequired
  | captchaFailed
  | proceed (rl : RateLimitResult)
  deriving Repr, DecidableEq

/-- HTTP status the route sends for each admission outcome (503, 429, 400 or
the 200 path). -/
def httpStatus : AdmissionOutcome → Nat
  | .serviceUnavailable => 503
  | .captchaRequired => 429
  | .captchaFailed => 400
  | .proceed _ => 200

/-- The admission prefix of `GET /profile/:id`: if the Redis health probe
failed, reply 503 without touching the admission window; otherwise run
`checkAndRecordRequest` with the route's default window (60000 ms) and limit
(10), then apply the CAPTCHA escalation when denied or flagged.  Returns the
outcome together with the client's admission-window contents afterwards. -/
def profileAdmission (healthy : Bool) (entries : List Int) (now : Int)
    (recaptchaToken : Option String) (captchaValid spamRequiresCaptcha : Bool) :
    AdmissionOutcome × List Int :=
  if healthy = false then (.serviceUnavailable, entries)
  else
    let step := checkAndRecordRequest entries now 60000 10
    if step.1.allowed = false || spamRequiresCaptcha then
      match recaptchaToken with
      | none => (.captchaRequired, step.2)
      | some _ =>
        if captchaValid then (.proceed step.1, step.2) else (.captchaFailed, step.2)
    else (.proceed step.1, step.2)

/-- Outcome of the Redis read inside `CacheService.getLastRefreshTime`
(`src/apps/api/src/services/cache.ts` lines 85-93): a successful read of the
optional marker, or a store-level error. -/
inductive StoreRead where
  | ok (v : Option Int)
  | err
  deriving Repr, DecidableEq

/-- `CacheService.getLastRefreshTime`: parse the stored timestamp when
present; the catch branch maps a store error to `null`. -/
def getLastRefreshTime : StoreRead → Option Int
  | .ok v => v
  | .err => none

/-- Result of `CacheService.canRefresh`: `allowed` plus the optional
`waitTime` hint in seconds. -/
structure RefreshCheck where
  allowed : Bool
  waitTime : Option Int
  deriving Repr, DecidableEq

/-- `CacheService.canRefresh` (`src/apps/api/src/services/cache.ts` lines
104-125).  A missing marker (including the JS-falsy timestamp `0`) allows;
otherwise the request is allowed only once `now - lastRefresh` reaches the
10-minute cooldown, else it is denied with
`Math.ceil((cooldown - elapsed) / 1000)` seconds to wait.  The outer catch
branch ("Allow on error") is reached through `StoreRead.err`. -/
def canRefresh (r : StoreRead) (now : Int) : RefreshCheck :=
  match getLastRefreshTime r with
  | none => { allowed := true, waitTime := none }
  | some t =>
    if t = 0 then { allowed := true, waitTime := none }
    else
      let elapsed := now - t
      let cooldown : Int := 10 * 60 * 1000
      if elapsed < cooldown then
        { allowed := false, waitTime := some ((cooldown - elapsed + 999) / 1000) }
      else { allowed := true, waitTime := none }

/-- `CacheService.setLastRefreshTime` stores `Date.now()` under the entity's
refresh key (TTL 600 s): immediately afterwards the store read yields the
write time. -/
def setLastRefreshTime (now : Int) : StoreRead :=
  .ok (some now)

/-- The slice of a Steam profile the orchestration logic reads: the teammate
enrichment copies `username` and `avatar` (`profile.ts` lines 171-176). -/
structure SteamData where
  username : String
  avatar : String
  deriving Repr, DecidableEq

/-- One entry of `leetify.recent_teammates`.  `name` and `avatar` are the
enrichment fields; a `none` or empty `name` is JS-falsy, which is what the
`needsFetch.leetifyTeammates` probe tests. -/
structure Teammate where
  steam64_id : String
  name : Option String
  avatar : Option String
  deriving Repr, DecidableEq

/-- The slice of the Leetify payload the route inspects: the nested teammate
collection (`recent_teammates`), `none` when the upstream object lacks it. -/
structure LeetifyData where
  recent_teammates : Option (List Teammate)
  deriving Repr, DecidableEq

/-- Tri-state of one cached field in JS terms: key missing (`undefined`),
cached `null` (resolved-empty), or a cached value (resolved-present). -/
inductive FieldState (α : Type) where
  | absent
  | resolvedEmpty
  | resolvedPresent (v : α)
  deriving Repr, DecidableEq

/-- One cached `UserProfile` record.  `steam` is always present in a stored
record (the route throws before persisting when it has no Steam data);
payloads of fields the route treats opaquely are plain strings. -/
structure ProfileRecord where
  steam : SteamData
  faceit : FieldState String
  leetify : FieldState LeetifyData
  premier : FieldState String
  competitive : FieldState String
  wingman : FieldState String
  deriving Repr, DecidableEq

/-- Outcome of one upstream field fetch, before the services collapse it:
a value, an authoritative "not found", or a thrown error. -/
inductive FetchOutcome (α : Type) where
  | success (v : α)
  | notFound
  | fetchError
  deriving Repr, DecidableEq

/-- What `FaceitService.getStats` / `LeetifyService.getStats` /
`CS2Service.get*Stats` hand the route: the value, or `null` both for "not
found" and for the catch branch on an error (`src/unnamed/part_001` lines
602-605 and 656-663); the route's `.catch(() => null)` has the same effect
for errors thrown outside those services. -/
def fetchValue {α : Type} : FetchOutcome α → Option α
  | .success v => some v
  | .notFound => none
  | .fetchError => none

/-- One round of upstream responses for a get-or-refresh call.  Steam is
special: `steamService.getProfile` either returns a profile or throws (the
route attaches no `.catch` to it). -/
structure FetchEnv where
  steamFetch : Except Unit SteamData
  faceitFetch : FetchOutcome String
  leetifyFetch : FetchOutcome LeetifyData
  premierFetch : FetchOutcome String
  competitiveFetch : FetchOutcome String
  wingmanFetch : FetchOutcome String
  teammateFetch : String → FetchOutcome SteamData

/-- JS truthiness of `teammate.name`: `undefined`, `null` and the empty
string are falsy. -/
def jsTruthyName : Option String → Bool
  | none => false
  | some s => !(s == "")

/-- Whether a field is in the absent state (JS `undefined`). -/
def fieldAbsent {α : Type} : FieldState α → Bool
  | .absent => true
  | _ => false

/-- `needsFetch.leetifyTeammates` for a present cached record
(`profile.ts` lines 95-97): true unless the cached Leetify payload has a
non-empty `recent_teammates` list whose first entry carries a truthy
`name`. -/
def needsTeammatesEnrichment : FieldState LeetifyData → Bool
  | .resolvedPresent d =>
    match d.recent_teammates with
    | none => true
    | some [] => true
    | some (t :: _) => !(jsTruthyName t.name)
  | _ => true

/-- The `needsFetch` object the route builds (`profile.ts` lines 91-101). -/
structure NeedsFetch where
  steam : Bool
  faceit : Bool
  leetify : Bool
  leetifyTeammates : Bool
  premier : Bool
  competitive : Bool
  wingman : Bool
  deriving Repr, DecidableEq

/-- Compute `needsFetch` from the cached record (`profile.ts` lines 91-101):
with no cached record everything is fetched; otherwise a data field is
fetched exactly when it is `undefined` (`!cached.f && cached.f !== null`),
and the teammate pass is scheduled by `needsTeammatesEnrichment`. -/
def computeNeedsFetch (cached : Option ProfileRecord) : NeedsFetch :=
  match cached with
  | none =>
    { steam := true, faceit := true, leetify := true, leetifyTeammates := true,
      premier := true, competitive := true, wingman := true }
  | some c =>
    { steam := false
      faceit := fieldAbsent c.faceit
      leetify := fieldAbsent c.leetify
      leetifyTeammates := needsTeammatesEnrichment c.leetify
      premier := fieldAbsent c.premier
      competitive := fieldAbsent c.competitive
      wingman := fieldAbsent c.wingman }

/-- `Object.values(needsFetch).some(v => v)` (`profile.ts` line 104). -/
def NeedsFetch.anyField (nf : NeedsFetch) : Bool :=
  nf.steam || nf.faceit || nf.leetify || nf.leetifyTeammates ||
    nf.premier || nf.competitive || nf.wingman

/-- `fetchedData[key]`: `none` when the field was not fetched this round
(the key is `undefined`), `some r` when it was, with `r` the service's
value-or-null answer. -/
def fetchIf {α : Type} (b : Bool) (r : Option α) : Option (Option α) :=
  if b then some r else none

/-- The merge of one data field (`profile.ts` lines 156-160):
`fetchedData.f !== undefined ? fetchedData.f : (cached?.f ?? null)`. -/
def mergeField {α : Type} (fetched : Option (Option α)) (cachedField : FieldState α) :
    Option α :=
  match fetched with
  | some r => r
  | none =>
    match cachedField with
    | .resolvedPresent v => some v
    | _ => none

/-- `cached?.f`: the field of the cached record, absent when there is no
record. -/
def cachedFieldOf {α : Type} (cached : Option ProfileRecord)
    (proj : ProfileRecord → FieldState α) : FieldState α :=
  match cached with
  | none => .absent
  | some c => proj c

/-- Building the profile object (`profile.ts` lines 198-202):
`f === null ? null : (f || undefined)` — a merged `null` is persisted as
resolved-empty, a merged value as resolved-present; merged fields are never
`undefined`. -/
def toFieldState {α : Type} : Option α → FieldState α
  | none => .resolvedEmpty
  | some v => .resolvedPresent v

/-- Enrichment of one teammate (`profile.ts` lines 169-180): copy `username`
and `avatar` from the fetched Steam profile; the catch branch keeps the
original entry untouched on a thrown error (and `getProfile` throws when the
profile is not found). -/
def enrichTeammate (fetch : String → FetchOutcome SteamData) (t : Teammate) : Teammate :=
  match fetch t.steam64_id with
  | .success p => { t with name := some p.username, avatar := some p.avatar }
  | .notFound => t
  | .fetchError => t

/-- The teammate enrichment pass (`profile.ts` lines 168-186): enrich the
first six entries (`slice(0, 6)`) and assign the result back to
`recent_teammates`.  All inner promises fulfil (each has its own catch), so
the `filter fulfilled` step drops nothing. -/
def enrichmentPass (fetch : String → FetchOutcome SteamData) (ts : List Teammate) :
    List Teammate :=
  (ts.take 6).map (enrichTeammate fetch)

/-- Enrichment applied to a present Leetify payload: the pass runs only when
`needsFetch.leetifyTeammates` holds and `recent_teammates` is a non-empty
list (`profile.ts` line 167). -/
def enrichLeetifyData (nfT : Bool) (fetch : String → FetchOutcome SteamData)
    (d : LeetifyData) : LeetifyData :=
  if nfT then
    match d.recent_teammates with
    | some ts =>
      if 0 < ts.length then { d with recent_teammates := some (enrichmentPass fetch ts) }
      else d
    | none => d
  else d

/-- Enrichment applied to the merged Leetify field: skipped entirely when the
merged value is `null` (`leetify?.recent_teammates` is falsy). -/
def applyTeammateEnrichment (nfT : Bool) (fetch : String → FetchOutcome SteamData) :
    Option LeetifyData → Option LeetifyData
  | none => none
  | some d => some (enrichLeetifyData nfT fetch d)

/-- The get-or-refresh orchestration of `GET /profile/:id`
(`profile.ts` lines 89-217), after admission: compute `needsFetch`, take the
full-cache-hit fast path, otherwise fetch the missing fields, merge them with
the cached record, run the teammate enrichment pass, and return the record
that is persisted via `setProfile` and sent to the caller.  `Except.error`
is the route-level failure ("Failed to fetch Steam profile"). -/
def getOrRefresh (cached : Option ProfileRecord) (env : FetchEnv) :
    Except Unit ProfileRecord :=
  let nf := computeNeedsFetch cached
  if nf.anyField = false then
    match cached with
    | some c => .ok c
    | none => .error ()
  else
    let steamFetched : Option (Except Unit SteamData) :=
      if nf.steam then some env.steamFetch else none
    let steamMerged : Option SteamData :=
      match steamFetched with
      | some (.ok v) => some v
      | some (.error _) => cached.map fun c => c.steam
      | none => cached.map fun c => c.steam
    match steamMerged with
    | none => .error ()
    | some s =>
      let faceitMerged :=
        mergeField (fetchIf nf.faceit (fetchValue env.faceitFetch))
          (cachedFieldOf cached fun c => c.faceit)
      let leetifyMerged :=
        mergeField (fetchIf nf.leetify (fetchValue env.leetifyFetch))
          (cachedFieldOf cached fun c => c.leetify)
      let premierMerged :=
        mergeField (fetchIf nf.premier (fetchValue env.premierFetch))
          (cachedFieldOf cached fun c => c.premier)
      let competitiveMerged :=
        mergeField (fetchIf nf.competitive (fetchValue env.competitiveFetch))
          (cachedFieldOf cached fun c => c.competitive)
      let wingmanMerged :=
        mergeField (fetchIf nf.wingman (fetchValue env.wingmanFetch))
          (cachedFieldOf cached fun c => c.wingman)
      let leetifyFinal := applyTeammateEnrichment nf.leetifyTeammates env.teammateFetch leetifyMerged
      .ok
        { steam := s
          faceit := toFieldState faceitMerged
          leetify := toFieldState leetifyFinal
          premier := toFieldState premierMerged
          competitive := toFieldState competitiveMerged
          wingman := toFieldState wingmanMerged }

/-- `CacheService.invalidateProfile` (`cache.ts` lines 54-60): deletes the
whole record. -/
def invalidateProfile (_cached : Option ProfileRecord) : Option ProfileRecord :=
  none

/-- Effect of one get-or-refresh call on the cached record: the merged record
is persisted via `setProfile`; a route-level failure happens before
`setProfile`, leaving the cache unchanged. -/
def stepCache (cached : Option ProfileRecord) (env : FetchEnv) : Option ProfileRecord :=
  match getOrRefresh cached env with
  | .ok r => some r
  | .error _ => cached

/-- The sequence of cache states observed before each call of a run of
repeated get-or-refresh calls (including the final state). -/
def cacheStates : Option ProfileRecord → List FetchEnv → List (Option ProfileRecord)
  | cached, [] => [cached]
  | cached, e :: es => cached :: cacheStates (stepCache cached e) es

/-- The five tri-state data fields of a profile record. -/
inductive FieldName where
  | faceit
  | leetify
  | premier
  | competitive
  | wingman
  deriving Repr, DecidableEq

/-- Payload-free view of a field state. -/
inductive FieldStatus where
  | absent
  | resolvedEmpty
  | resolvedPresent
  deriving Repr, DecidableEq

/-- Status of a field state, forgetting the payload. -/
def FieldState.status {α : Type} : FieldState α → FieldStatus
  | .absent => .absent
  | .resolvedEmpty => .resolvedEmpty
  | .resolvedPresent _ => .resolvedPresent

/-- Status of a named field of a record. -/
def fieldStatus (c : ProfileRecord) : FieldName → FieldStatus
  | .faceit => c.faceit.status
  | .leetify => c.leetify.status
  | .premier => c.premier.status
  | .competitive => c.competitive.status
  | .wingman => c.wingman.status

/-- The `needsFetch` decision for a named data field. -/
def needsFetchOf (cached : Option ProfileRecord) : FieldName → Bool
  | .faceit => (computeNeedsFetch cached).faceit
  | .leetify => (computeNeedsFetch cached).leetify
  | .premier => (computeNeedsFetch cached).premier
  | .competitive => (computeNeedsFetch cached).competitive
  | .wingman => (computeNeedsFetch cached).wingman

/-- The record `getOrRefresh` builds in the non-fast path when a cached
record is present: steam is taken from the cache (its `needsFetch` is false),
each data field is merged, and the teammate pass is applied to the merged
Leetify field. -/
def mergedRecord (c : ProfileRecord) (env : FetchEnv) : ProfileRecord :=
  let nf := computeNeedsFetch (some c)
  { steam := c.steam
    faceit := toFieldState (mergeField (fetchIf nf.faceit (fetchValue env.faceitFetch)) c.faceit)
    leetify := toFieldState (applyTeammateEnrichment nf.leetifyTeammates env.teammateFetch
      (mergeField (fetchIf nf.leetify (fetchValue env.leetifyFetch)) c.leetify))
    premier := toFieldState (mergeField (fetchIf nf.premier (fetchValue env.premierFetch)) c.premier)
    competitive := toFieldState
      (mergeField (fetchIf nf.competitive (fetchValue env.competitiveFetch)) c.competitive)
    wingman := toFieldState (mergeField (fetchIf nf.wingman (fetchValue env.wingmanFetch)) c.wingman) }

/-- A concrete cached Steam payload for the scenarios. -/
def steamAlice : SteamData :=
  { username := "alice", avatar := "alice.png" }

/-- The cached record of the C3 scenario: steam resolved-present, faceit
absent, leetify resolved-empty (and the remaining fields resolved-empty so
that only faceit needs a fetch). -/
def recFaceitAbsent : ProfileRecord :=
  { steam := steamAlice
    faceit := .absent
    leetify := .resolvedEmpty
    premier := .resolvedEmpty
    competitive := .resolvedEmpty
    wingman := .resolvedEmpty }

/-- A fetch round in which every upstream call throws. -/
def envAllErrors : FetchEnv :=
  { steamFetch := .error ()
    faceitFetch := .fetchError
    leetifyFetch := .fetchError
    premierFetch := .fetchError
    competitiveFetch := .fetchError
    wingmanFetch := .fetchError
    teammateFetch := fun _ => .fetchError }

/-- A fully resolved record used to witness the no-refetch invariant. -/
def recAllResolvedEmpty : ProfileRecord :=
  { steam := steamAlice
    faceit := .resolvedEmpty
    leetify := .resolvedEmpty
    premier := .resolvedEmpty
    competitive := .resolvedEmpty
    wingman := .resolvedEmpty }

/-- An un-enriched teammate entry with a given id. -/
def plainTeammate (id : String) : Teammate :=
  { steam64_id := id, name := none, avatar := none }

/-- Seven un-enriched teammate entries: more than the `slice(0, 6)` bound of
the enrichment pass. -/
def sevenTeammates : List Teammate :=
  [plainTeammate "1", plainTeammate "2", plainTeammate "3", plainTeammate "4",
   plainTeammate "5", plainTeammate "6", plainTeammate "7"]

/-- Membership in the pruned window: exactly the original entries strictly
newer than the window start. -/
theorem mem_pruneEntries (entries : List Int) (ws t : Int) :
    t ∈ pruneEntries entries ws ↔ t ∈ entries ∧ ws < t := by
  simp [pruneEntries]

/-- `oldestScore` is `none` exactly on the empty set. -/
theorem oldestScore_eq_none (l : List Int) : oldestScore l = none ↔ l = [] := by
  cases l with
  | nil => simp [oldestScore]
  | cons t ts => cases h : oldestScore ts <;> simp [oldestScore, h]

/-- The oldest score is a member of the set. -/
theorem oldestScore_mem (l : List Int) (m : Int) (h : oldestScore l = some m) :
    m ∈ l := by
  induction l generalizing m with
  | nil => simp [oldestScore] at h
  | cons t ts ih =>
    cases hts : oldestScore ts with
    | none =>
      simp [oldestScore, hts] at h
      simp [h]
    | some m2 =>
      simp [oldestScore, hts] at h
      rcases min_cases t m2 with ⟨heq, _⟩ | ⟨heq, _⟩ <;> rw [← h, heq]
      · exact List.mem_cons_self t ts
      · exact List.mem_cons_of_mem t (ih m2 hts)

/-- The oldest score is a lower bound of the set. -/
theorem oldestScore_le (l : List Int) (m : Int) (h : oldestScore l = some m) :
    ∀ t ∈ l, m ≤ t := by
  induction l generalizing m with
  | nil => simp
  | cons a ts ih =>
    intro t ht
    cases hts : oldestScore ts with
    | none =>
      have hnil : ts = [] := (oldestScore_eq_none ts).mp hts
      subst hnil
      simp [oldestScore] at h
      simp at ht
      omega
    | some m2 =>
      simp [oldestScore, hts] at h
      rcases List.mem_cons.mp ht with rfl | hmem
      · rw [← h]; exact min_le_left t m2
      · exact le_trans (le_trans (h ▸ min_le_right a m2) (le_refl m2)) (ih m2 hts t hmem)

/-- C1, corrected. `checkAndRecordRequest` admits a request iff the number of
entries surviving the prune (which removes every timestamp at or before
`now - windowMs`, the inclusive `ZREMRANGEBYSCORE` bound) is strictly below
`maxRequests`; it appends a new timestamp entry exactly when the request is
admitted, a denied request leaving the window's membership unchanged; and in
the scenario with `windowMs = 60000`, `maxRequests = 10`, ten requests within
one second are all allowed and the eleventh is denied with `remaining = 0`. -/
theorem checkAndRecord_admit_iff_under_limit (entries : List Int) (now windowMs limit : Int) :
    ((checkAndRecordRequest entries now windowMs limit).1.allowed = true ↔
      ((pruneEntries entries (now - windowMs)).length : Int) < limit) ∧
    ((checkAndRecordRequest entries now windowMs limit).1.allowed = true →
      (checkAndRecordRequest entries now windowMs limit).2 =
        pruneEntries entries (now - windowMs) ++ [now]) ∧
    ((checkAndRecordRequest entries now windowMs limit).1.allowed = false →
      (checkAndRecordRequest entries now windowMs limit).2 =
        pruneEntries entries (now - windowMs)) ∧
    (scenarioResults.take 10).all (fun r => r.allowed) = true ∧
    scenarioResults.getLast? = some
      { allowed := false, remaining := 0, resetTime := 60000, total := 10, currentCount := 10 } := by
  refine ⟨?_, ?_, ?_, by decide, by decide⟩ <;>
  · simp only [checkAndRecordRequest]
    split <;> simp_all

/-- Witness for C1: a concrete admitted request appends its timestamp, a
concrete denied request leaves the pruned window unchanged. -/
theorem checkAndRecord_admit_iff_under_limit_witness :
    (checkAndRecordRequest [5] 70000 60000 10).2 = pruneEntries [5] 10000 ++ [70000] ∧
    (checkAndRecordRequest [20000, 30000] 70000 60000 2).2 =
      pruneEntries [20000, 30000] 10000 := by
  constructor
  · exact (checkAndRecord_admit_iff_under_limit [5] 70000 60000 10).2.1 (by decide)
  · exact (checkAndRecord_admit_iff_under_limit [20000, 30000] 70000 60000 2).2.2.1 (by decide)

/-- C1 counterexample to the claim as stated: an entry recorded exactly
`windowMs` ago is not "older than `now - windowMs`", so per the claim it
survives pruning and (with `maxRequests = 1`) the next request must be
denied; the code's inclusive prune removes it and admits the request. -/
theorem checkAndRecord_prune_boundary_cex :
    (checkAndRecordRequest [0] 60000 60000 1).1.allowed = true ∧
    ¬ (((specSurviving [0] 0).length : Int) < 1) := by decide

/-- C5. `checkAndRecordRequest` computes `resetTime` as the oldest surviving
entry's timestamp plus `windowMs`, falling back to `now` when no entry
exists; and whenever the request is denied (all recorded timestamps lying in
the past and the window length being nonnegative), the returned `resetTime`
lies in `[now, now + windowMs]`. -/
theorem resetTime_from_oldest_and_bounds (entries : List Int) (now windowMs limit : Int)
    (hpast : ∀ t ∈ entries, t ≤ now) (hw : 0 ≤ windowMs) :
    ((checkAndRecordRequest entries now windowMs limit).1.resetTime =
      (oldestScore (checkAndRecordRequest entries now windowMs limit).2).getD now + windowMs) ∧
    ((checkAndRecordRequest entries now windowMs limit).1.allowed = false →
      now ≤ (checkAndRecordRequest entries now windowMs limit).1.resetTime ∧
      (checkAndRecordRequest entries now windowMs limit).1.resetTime ≤ now + windowMs) := by
  constructor
  · simp only [checkAndRecordRequest]
    split <;> rfl
  · simp only [checkAndRecordRequest]
    split
    · intro hcontra
      simp at hcontra
    · intro _
      cases hold : oldestScore (pruneEntries entries (now - windowMs)) with
      | none => simp [hold]; omega
      | some m =>
        have hmem := oldestScore_mem _ _ hold
        rw [mem_pruneEntries] at hmem
        have h1 := hpast m hmem.1
        have h2 := hmem.2
        simp [hold]
        omega

/-- Witness for C5: a concrete denied request yields a reset time inside
`[now, now + windowMs]`. -/
theorem resetTime_from_oldest_and_bounds_witness :
    70000 ≤ (checkAndRecordRequest [20000, 30000] 70000 60000 2).1.resetTime ∧
    (checkAndRecordRequest [20000, 30000] 70000 60000 2).1.resetTime ≤ 70000 + 60000 := by
  have hpast : ∀ t ∈ ([20000, 30000] : List Int), t ≤ 70000 := by
    intro t ht
    fin_cases ht <;> omega
  exact (resetTime_from_oldest_and_bounds [20000, 30000] 70000 60000 2 hpast
    (by omega)).2 (by decide)

/-- C6 counterexample to the claim as stated: with one stale entry and time
advanced past the window, the next `checkAndRecordRequest` records the new
request and reports the post-record count `currentCount = 1`, not `0`. -/
theorem stale_window_count_cex :
    (checkAndRecordRequest [0] 100000 60000 10).1.allowed = true ∧
    (checkAndRecordRequest [0] 100000 60000 10).1.currentCount = 1 ∧
    ¬ ((checkAndRecordRequest [0] 100000 60000 10).1.currentCount = 0) := by decide

/-- C6, corrected. After time advances past `windowMs` with no new requests,
every recorded timestamp is pruned (the surviving count is `0`), so the next
`checkAndRecordRequest` is allowed; having recorded the new request it
reports `currentCount = 1` and `remaining = maxRequests - 1`. -/
theorem stale_window_prunes_to_zero (entries : List Int) (now windowMs limit : Int)
    (hstale : ∀ t ∈ entries, t ≤ now - windowMs) (hpos : 1 ≤ limit) :
    pruneEntries entries (now - windowMs) = [] ∧
    (checkAndRecordRequest entries now windowMs limit).1.allowed = true ∧
    (checkAndRecordRequest entries now windowMs limit).1.currentCount = 1 ∧
    (checkAndRecordRequest entries now windowMs limit).1.remaining = limit - 1 := by
  have hpr : pruneEntries entries (now - windowMs) = [] := by
    rw [pruneEntries, List.filter_eq_nil_iff]
    intro t ht
    have := hstale t ht
    simp only [decide_eq_true_eq, not_lt]
    omega
  refine ⟨hpr, ?_, ?_, ?_⟩
  all_goals simp only [checkAndRecordRequest, hpr, List.length_nil, Nat.cast_zero]
  all_goals rw [if_pos (by omega : (0 : Int) < limit)]
  all_goals simp
  all_goals omega

/-- Witness for C6: one entry recorded at time `0`, checked at `100000` with
a `60000` ms window, is pruned; the check is allowed with `currentCount = 1`
and `remaining = 9`. -/
theorem stale_window_prunes_to_zero_witness :
    pruneEntries [0] 40000 = [] ∧
    (checkAndRecordRequest [0] 100000 60000 10).1.allowed = true ∧
    (checkAndRecordRequest [0] 100000 60000 10).1.currentCount = 1 ∧
    (checkAndRecordRequest [0] 100000 60000 10).1.remaining = 9 := by
  have h := stale_window_prunes_to_zero [0] 100000 60000 10
    (by intro t ht; fin_cases ht; omega) (by omega)
  refine ⟨h.1, h.2.1, h.2.2.1, ?_⟩
  have := h.2.2.2
  omega

/-- C2. When the Redis health probe fails (`isRedisHealthy` is false),
`GET /profile/:id` replies with the distinct service-degraded outcome
(HTTP 503, different from the 429 rate-limit rejection) before any admission
check runs, and the client's admission window is returned unchanged. -/
theorem healthGate_failClosed (p : PingOutcome) (entries : List Int) (now : Int)
    (recaptchaToken : Option String) (captchaValid spamRequiresCaptcha : Bool)
    (hp : isRedisHealthy p = false) :
    profileAdmission (isRedisHealthy p) entries now recaptchaToken captchaValid
        spamRequiresCaptcha =
      (.serviceUnavailable, entries) ∧
    httpStatus .serviceUnavailable = 503 ∧
    httpStatus .captchaRequired = 429 ∧
    AdmissionOutcome.serviceUnavailable ≠ AdmissionOutcome.captchaRequired := by
  refine ⟨?_, rfl, rfl, by decide⟩
  rw [hp]
  simp [profileAdmission]

/-- Witness for C2: a thrown ping rejects a concrete request with 503 and an
untouched admission window. -/
theorem healthGate_failClosed_witness :
    profileAdmission (isRedisHealthy .errPing) [5] 100 none false false =
      (.serviceUnavailable, [5]) ∧
    httpStatus .serviceUnavailable = 503 :=
  ⟨(healthGate_failClosed .errPing [5] 100 none false false rfl).1,
   (healthGate_failClosed .errPing [5] 100 none false false rfl).2.1⟩

/-- C7. Immediately after `setLastRefreshTime` writes the cooldown marker at
a (nonzero) time `t`, `canRefresh` at that same instant denies with a wait of
`600` seconds — exactly the 10-minute cooldown; once the 10 minutes have
elapsed it allows; and with no marker present it allows. -/
theorem cooldown_roundtrip (t now : Int) (ht : t ≠ 0) (helapsed : t + 600000 ≤ now) :
    canRefresh (setLastRefreshTime t) t = { allowed := false, waitTime := some 600 } ∧
    (canRefresh (setLastRefreshTime t) now).allowed = true ∧
    (canRefresh (.ok none) now).allowed = true := by
  refine ⟨?_, ?_, rfl⟩
  · simp only [canRefresh, setLastRefreshTime, getLastRefreshTime, if_neg ht]
    rw [if_pos (by omega : t - t < 10 * 60 * 1000)]
    norm_num
  · simp only [canRefresh, setLastRefreshTime, getLastRefreshTime, if_neg ht]
    rw [if_neg (by omega : ¬ (now - t < 10 * 60 * 1000))]

/-- Witness for C7: marker written at `t = 1000`, probed at `1000` and at
`601000`. -/
theorem cooldown_roundtrip_witness :
    canRefresh (setLastRefreshTime 1000) 1000 = { allowed := false, waitTime := some 600 } ∧
    (canRefresh (setLastRefreshTime 1000) 601000).allowed = true :=
  ⟨(cooldown_roundtrip 1000 601000 (by decide) (by decide)).1,
   (cooldown_roundtrip 1000 601000 (by decide) (by decide)).2.1⟩

/-- C10. When the store read inside the cooldown check fails, `canRefresh`
returns `allowed = true` with no wait hint (the catch branch "Allow on
error"), so a store-level error can never produce a cooldown rejection —
the opposite polarity of the profile route's health gate, which on a failed
probe rejects every request with the service-degraded outcome. -/
theorem canRefresh_failsOpen (now : Int) (entries : List Int)
    (recaptchaToken : Option String) (captchaValid spamRequiresCaptcha : Bool) :
    canRefresh .err now = { allowed := true, waitTime := none } ∧
    (profileAdmission false entries now recaptchaToken captchaValid spamRequiresCaptcha).1 =
      .serviceUnavailable := by
  refine ⟨rfl, ?_⟩
  simp [profileAdmission]

/-- A field is not absent exactly when its status is not `absent`. -/
theorem fieldAbsent_false_status {α : Type} (fs : FieldState α) :
    fieldAbsent fs = false ↔ fs.status ≠ .absent := by
  cases fs <;> simp [fieldAbsent, FieldState.status]

/-- A field is absent exactly when its status is `absent`. -/
theorem fieldAbsent_iff_status {α : Type} (fs : FieldState α) :
    fieldAbsent fs = true ↔ fs.status = .absent := by
  cases fs <;> simp [fieldAbsent, FieldState.status]

/-- Merging a field that was not fetched this round (because it is already
resolved) keeps its status. -/
theorem mergeField_keeps_status {α : Type} (fs : FieldState α) (r : Option α)
    (h : fieldAbsent fs = false) :
    (toFieldState (mergeField (fetchIf (fieldAbsent fs) r) fs)).status = fs.status := by
  cases fs <;> simp_all [fieldAbsent, fetchIf, mergeField, toFieldState, FieldState.status]

/-- The teammate enrichment pass never changes the resolution status of the
merged Leetify field. -/
theorem applyTeammateEnrichment_status (b : Bool) (fetch : String → FetchOutcome SteamData)
    (ld : Option LeetifyData) :
    (toFieldState (applyTeammateEnrichment b fetch ld)).status = (toFieldState ld).status := by
  cases ld <;> simp [applyTeammateEnrichment, toFieldState, FieldState.status]

/-- With a cached record present, `getOrRefresh` never fails: it returns the
cached record on a full cache hit, and the merged record otherwise. -/
theorem getOrRefresh_some_eq (c : ProfileRecord) (env : FetchEnv) :
    getOrRefresh (some c) env =
      if (computeNeedsFetch (some c)).anyField = false then .ok c
      else .ok (mergedRecord c env) := by
  by_cases h : (computeNeedsFetch (some c)).anyField = false <;>
    simp [getOrRefresh, mergedRecord, cachedFieldOf, computeNeedsFetch, h]

/-- One get-or-refresh call on a present record persists a record in which
every already-resolved field keeps its resolution status. -/
theorem stepCache_preserves (c : ProfileRecord) (env : FetchEnv) :
    ∃ r, stepCache (some c) env = some r ∧
      ∀ f, fieldStatus c f ≠ .absent → fieldStatus r f = fieldStatus c f := by
  rw [stepCache, getOrRefresh_some_eq]
  by_cases h : (computeNeedsFetch (some c)).anyField = false
  · rw [if_pos h]
    exact ⟨c, rfl, fun f _ => rfl⟩
  · rw [if_neg h]
    refine ⟨mergedRecord c env, rfl, ?_⟩
    intro f hf
    cases f with
    | faceit =>
      simp only [fieldStatus, mergedRecord, computeNeedsFetch] at hf ⊢
      exact mergeField_keeps_status _ _ ((fieldAbsent_false_status _).mpr hf)
    | leetify =>
      simp only [fieldStatus, mergedRecord, computeNeedsFetch] at hf ⊢
      rw [applyTeammateEnrichment_status]
      exact mergeField_keeps_status _ _ ((fieldAbsent_false_status _).mpr hf)
    | premier =>
      simp only [fieldStatus, mergedRecord, computeNeedsFetch] at hf ⊢
      exact mergeField_keeps_status _ _ ((fieldAbsent_false_status _).mpr hf)
    | competitive =>
      simp only [fieldStatus, mergedRecord, computeNeedsFetch] at hf ⊢
      exact mergeField_keeps_status _ _ ((fieldAbsent_false_status _).mpr hf)
    | wingman =>
      simp only [fieldStatus, mergedRecord, computeNeedsFetch] at hf ⊢
      exact mergeField_keeps_status _ _ ((fieldAbsent_false_status _).mpr hf)

/-- The fetch decision for a present record is "field is absent". -/
theorem needsFetchOf_iff_absent (c2 : ProfileRecord) (f : FieldName) :
    needsFetchOf (some c2) f = true ↔ fieldStatus c2 f = .absent := by
  cases f <;> simp [needsFetchOf, computeNeedsFetch, fieldStatus, fieldAbsent_iff_status]

/-- C4. The get-or-refresh path fetches a data field exactly when it is
absent; after explicit invalidation (which deletes the record) every field is
fetched again; and a field that is resolved (empty or present) keeps its
status, and is never refetched, across arbitrarily many repeated
get-or-refresh calls. -/
theorem resolved_fields_never_refetched (c : ProfileRecord) (f : FieldName)
    (envs : List FetchEnv) (h : fieldStatus c f ≠ .absent) :
    (∀ c2 : ProfileRecord, needsFetchOf (some c2) f = true ↔ fieldStatus c2 f = .absent) ∧
    needsFetchOf (invalidateProfile (some c)) f = true ∧
    ∀ s ∈ cacheStates (some c) envs, ∃ c2, s = some c2 ∧
      fieldStatus c2 f = fieldStatus c f ∧ needsFetchOf s f = false := by
  refine ⟨fun c2 => needsFetchOf_iff_absent c2 f, by cases f <;> rfl, ?_⟩
  induction envs generalizing c with
  | nil =>
    intro s hs
    simp only [cacheStates, List.mem_cons, List.not_mem_nil, or_false] at hs
    subst hs
    refine ⟨c, rfl, rfl, ?_⟩
    cases hn : needsFetchOf (some c) f
    · rfl
    · exact absurd ((needsFetchOf_iff_absent c f).mp hn) h
  | cons e es ih =>
    intro s hs
    simp only [cacheStates, List.mem_cons] at hs
    rcases hs with rfl | hs
    · refine ⟨c, rfl, rfl, ?_⟩
      cases hn : needsFetchOf (some c) f
      · rfl
      · exact absurd ((needsFetchOf_iff_absent c f).mp hn) h
    · obtain ⟨r, hr, hst⟩ := stepCache_preserves c e
      rw [hr] at hs
      have h2 : fieldStatus r f ≠ .absent := by
        rw [hst f h]
        exact h
      obtain ⟨c2, hc2, hstat, hnf⟩ := ih r h2 s hs
      exact ⟨c2, hc2, by rw [hstat, hst f h], hnf⟩

/-- Witness for C4: a fully resolved record is itself in the state trace of a
run and its faceit field keeps its status with no refetch decision. -/
theorem resolved_fields_never_refetched_witness :
    ∃ c2, (some recAllResolvedEmpty : Option ProfileRecord) = some c2 ∧
      fieldStatus c2 .faceit = fieldStatus recAllResolvedEmpty .faceit ∧
      needsFetchOf (some recAllResolvedEmpty) .faceit = false := by
  have h := resolved_fields_never_refetched recAllResolvedEmpty .faceit [envAllErrors]
    (by decide)
  exact h.2.2 (some recAllResolvedEmpty) (by simp [cacheStates])

/-- C3, code bug. In the scenario with steam resolved-present, faceit absent
and the remaining fields resolved-empty, only faceit is scheduled for fetch;
when that fetch throws, the services' catch branches return `null`, so the
persisted and returned record marks faceit resolved-empty — the record
changes, instead of staying unchanged with faceit left absent as the spec
requires. -/
theorem fetchError_cached_as_resolvedEmpty :
    (computeNeedsFetch (some recFaceitAbsent)).faceit = true ∧
    (computeNeedsFetch (some recFaceitAbsent)).steam = false ∧
    (computeNeedsFetch (some recFaceitAbsent)).leetify = false ∧
    (computeNeedsFetch (some recFaceitAbsent)).premier = false ∧
    (computeNeedsFetch (some recFaceitAbsent)).competitive = false ∧
    (computeNeedsFetch (some recFaceitAbsent)).wingman = false ∧
    getOrRefresh (some recFaceitAbsent) envAllErrors =
      .ok { recFaceitAbsent with faceit := .resolvedEmpty } ∧
    ({ recFaceitAbsent with faceit := FieldState.resolvedEmpty } : ProfileRecord) ≠
      recFaceitAbsent := by
  exact ⟨rfl, rfl, rfl, rfl, rfl, rfl, rfl, by decide⟩

/-- C8 counterexample to the claim as stated: with seven nested teammate
entries, the enrichment pass (`slice(0, 6)`) returns six entries; the seventh
entry present before the pass is gone afterwards. -/
theorem enrichmentPass_drops_seventh_cex :
    sevenTeammates.length = 7 ∧
    (enrichmentPass (fun _ => .fetchError) sevenTeammates).length = 6 ∧
    plainTeammate "7" ∈ sevenTeammates ∧
    ¬ plainTeammate "7" ∈ enrichmentPass (fun _ => .fetchError) sevenTeammates := by
  decide

/-- C8, corrected. The enrichment pass keeps every entry among the first six
of the nested collection: each such entry appears in the result (enriched
when its metadata fetch succeeds), its identity field is never changed, and a
failed or not-found enrichment leaves the entry exactly as it was — but the
pass truncates the collection to its first six entries, dropping any beyond
them. -/
theorem enrichmentPass_preserves_first_six (fetch : String → FetchOutcome SteamData)
    (ts : List Teammate) (t : Teammate) (h : t ∈ ts.take 6) :
    (enrichmentPass fetch ts).length = min 6 ts.length ∧
    enrichTeammate fetch t ∈ enrichmentPass fetch ts ∧
    (enrichTeammate fetch t).steam64_id = t.steam64_id ∧
    (fetch t.steam64_id = .fetchError → enrichTeammate fetch t = t) ∧
    (fetch t.steam64_id = .notFound → enrichTeammate fetch t = t) := by
  refine ⟨?_, ?_, ?_, ?_, ?_⟩
  · simp [enrichmentPass]
  · exact List.mem_map_of_mem _ h
  · cases hf : fetch t.steam64_id <;> simp [enrichTeammate, hf]
  · intro hf
    simp [enrichTeammate, hf]
  · intro hf
    simp [enrichTeammate, hf]

/-- Witness for C8: the first of seven un-enriched teammates survives the
pass unchanged when its metadata fetch throws. -/
theorem enrichmentPass_preserves_first_six_witness :
    (enrichmentPass (fun _ => .fetchError) sevenTeammates).length =
      min 6 sevenTeammates.length ∧
    enrichTeammate (fun _ => .fetchError) (plainTeammate "1") ∈
      enrichmentPass (fun _ => .fetchError) sevenTeammates ∧
    enrichTeammate (fun _ => FetchOutcome.fetchError) (plainTeammate "1") =
      plainTeammate "1" := by
  have h := enrichmentPass_preserves_first_six (fun _ => .fetchError) sevenTeammates
    (plainTeammate "1") (by decide)
  exact ⟨h.1, h.2.1, h.2.2.2.1 rfl⟩

/-- C9, code bug. `getClientKey` uses the client-supplied `X-Forwarded-For`
header as the sole address signal whenever it is present: two requests
arriving from different network addresses (`1.2.3.4` and `5.6.7.8`) that
present the same forged header derive the same client key, contradicting the
function's own "prevent bypass" contract.  (Determinism itself holds:
`getClientKey` is a pure function of its three arguments.) -/
theorem getClientKey_spoofable :
    getClientKey "1.2.3.4".toList (some "ua".toList) (some "9.9.9.9".toList) =
      "9.9.9.9:ua".toList ∧
    getClientKey "5.6.7.8".toList (some "ua".toList) (some "9.9.9.9".toList) =
      "9.9.9.9:ua".toList ∧
    getClientKey "1.2.3.4".toList (some "ua".toList) (some "9.9.9.9".toList) =
      getClientKey "5.6.7.8".toList (some "ua".toList) (some "9.9.9.9".toList) ∧
    "1.2.3.4".toList ≠ "5.6.7.8".toList := by
  refine ⟨?_, ?_, ?_, by decide⟩ <;> decide

end Vantage
